import Mathlib

/-!
Verification development for the PPE alerting core of this repository.

The definitions below are a shallow embedding of the Python sources:

* `updatePpeKey` embeds the per-attribute body of `PPETracker.update_ppe`
  (src/tracker.py, lines 233-307);
* the `Key`/`Store` functions embed the Redis-backed TTL key-value store used
  by `AlertManager` (src/alerts.py): the two disjoint string key namespaces
  "violation_hash:..." and "alert_suppression:{camera}:{gx}:{gy}" are modelled
  by the two constructors of `Key`, and a live key is one whose stored expiry
  lies strictly in the future;
* `getGridCell`, `getViolationHash`, `isViolationHashAlerted`,
  `markViolationHashAlerted`, `isSuppressed`, `setSuppression`,
  `updateViolations`, `checkAndGenerateAlerts` embed the methods of
  `AlertManager` with the same names (src/alerts.py, lines 317-557).

Wall-clock timestamps (`time.time()`) are passed explicitly as a rational
`now`; Python float arithmetic on timestamps and coordinates is modelled by
exact rational arithmetic; `int(...)` truncation toward zero is `truncQ`.
An unavailable Redis client (`self.redis_client is None`) is modelled by the
store being `none`.
-/

namespace EGTC

attribute [local semireducible] Rat.sub Rat.add Rat.mul Rat.inv

/-- Tri-state output of the PPE debouncer: Python `True` / `False` /
the string literal `"PENDING"` returned by `PPETracker.update_ppe`. -/
inductive PpeOut where
  | yes
  | no
  | pending
deriving DecidableEq

/-- Per-(track id, attribute) debouncer state, the `k`-indexed slices of the
dictionaries `st["ppe"]`, `st["present_since"]`, `st["missing_since"]` and
`st["confidence"]` in `PPETracker.tr_states`.  A missing dictionary key is
`none`. -/
structure AttrState where
  ppe : Option Bool
  presentSince : Option ℚ
  missingSince : Option ℚ
  confidence : Option ℚ
deriving DecidableEq

/-- One iteration of the `for k, v in flags.items()` loop of
`PPETracker.update_ppe` (src/tracker.py, lines 268-307), acting on the slice
of the per-track state for the single attribute `k`.  `debounce` is
`self.debounce`, `v` the observed boolean, `conf` the confidence score
(the caller supplies the Python default 0.5 when absent).  Returns the
updated state slice and the emitted tri-state output `out[k]`. -/
def updatePpeKey (debounce now : ℚ) (st : AttrState) (v : Bool) (conf : ℚ) :
    AttrState × PpeOut :=
  if v then
    let ps := st.presentSince.getD now
    let presentDuration := now - ps
    let confirmThreshold : ℚ := if 7/10 < conf then 1 else if 1/2 < conf then 2 else 3
    if confirmThreshold ≤ presentDuration ∨ st.ppe = some true then
      ({ ppe := some true
         presentSince := some ps
         missingSince := none
         confidence := some conf }, PpeOut.yes)
    else
      ({ st with
          presentSince := some ps
          missingSince := none
          confidence := some conf }, PpeOut.pending)
  else
    let ms := st.missingSince.getD now
    let missingDuration := now - ms
    let wasConfirmed := st.ppe = some true
    let removeThreshold : ℚ := if wasConfirmed then debounce else debounce * (1/2)
    if removeThreshold ≤ missingDuration then
      ({ st with
          ppe := some false
          presentSince := none
          missingSince := some ms }, PpeOut.no)
    else
      ({ st with
          presentSince := none
          missingSince := some ms },
       if wasConfirmed then PpeOut.pending else PpeOut.no)

/-- Keys of the Redis store used by `AlertManager`.  The code uses the
disjoint string namespaces `violation_hash:{hash}` and
`alert_suppression:{camera_id}:{grid_x}:{grid_y}`; the two constructors
model those two shapes. -/
inductive Key where
  | vhash (h : String)
  | suppr (cameraId : String) (gridX gridY : ℤ)
deriving DecidableEq

/-- The Redis TTL store: an association list from keys to absolute expiry
times.  An entry is live at time `now` iff its expiry is strictly in the
future (Redis removes a key once its TTL elapses). -/
abbrev Store : Type := List (Key × ℚ)

/-- Stored expiry time for a key, if any entry is present. -/
def storeLookup : Store → Key → Option ℚ
  | [], _ => none
  | (k2, e) :: rest, k => if k2 = k then some e else storeLookup rest k

/-- Redis `EXISTS`: the key is present and not yet expired. -/
def storeExists (s : Store) (k : Key) (now : ℚ) : Bool :=
  match storeLookup s k with
  | some e => decide (now < e)
  | none => false

/-- Remove every entry for a key. -/
def storeErase : Store → Key → Store
  | [], _ => []
  | (k2, e) :: rest, k =>
      if k2 = k then storeErase rest k else (k2, e) :: storeErase rest k

/-- Redis `SETEX key ttl value`: replace any entry for the key with a fresh
one expiring at `now + ttl`. -/
def storeSetex (s : Store) (k : Key) (ttl now : ℚ) : Store :=
  (k, now + ttl) :: storeErase s k

/-- Redis `EXPIRE key ttl`: reset the expiry of an existing entry; no-op if
the key has no entry at all. -/
def storeExpire (s : Store) (k : Key) (ttl now : ℚ) : Store :=
  match storeLookup s k with
  | some _ => (k, now + ttl) :: storeErase s k
  | none => s

/-- The scalar fields of `AlertConfig` (src/alerts.py, lines 72-103) that the
alerting logic reads, with the same default values. -/
structure AlertConfig where
  alertDebounceSeconds : ℚ := 15
  alertMinConsecutiveFrames : ℕ := 20
  suppressionResetSeconds : ℚ := 20
  alertHashTtlSeconds : ℚ := 60
  gridSize : ℕ := 8
deriving DecidableEq

/-- A bounding box `[x1, y1, x2, y2]` in pixel coordinates. -/
structure Box4 where
  x1 : ℚ
  y1 : ℚ
  x2 : ℚ
  y2 : ℚ
deriving DecidableEq

/-- One entry of `AlertManager.violation_states` (src/alerts.py, lines
207-211 and 429-443): the per-track violation dictionary. -/
structure ViolationRecord where
  violationStart : ℚ
  firstFrame : ℕ
  lastSeen : ℚ
  lastSeenFrame : ℕ
  consecutiveFrames : ℕ
  missingPpe : List String
  gridX : ℤ
  gridY : ℤ
  boxes : List Box4
  roiName : Option String
  alerted : Bool
deriving DecidableEq

/-- One element of the `violations` argument of
`AlertManager.update_violations`: `(track_id, box, missing_ppe)` or
`(track_id, box, missing_ppe, roi_name)`; the optional fourth component is
`roiName`. -/
structure VObs where
  tid : ℕ
  box : Box4
  missingPpe : List String
  roiName : Option String
deriving DecidableEq

/-- The fields of the `alert_data` dictionary built by
`AlertManager._create_alert` (src/alerts.py, lines 635-649) that are derived
from the violation state (the wall-clock `timestamp`, database-only and
image-file fields are outside the model). -/
structure AlertRecord where
  cameraId : String
  gridX : ℤ
  gridY : ℤ
  personTrackId : Option ℕ
  missingPpe : List String
  personBox : Option Box4
  roiName : Option String
  frameWidth : ℚ
  frameHeight : ℚ
  alertDurationSeconds : ℚ
deriving DecidableEq

/-- The mutable state and construction parameters of `AlertManager`
(src/alerts.py, lines 178-211).  `store = none` models an unavailable Redis
client (`self.redis_client is None`). -/
structure AlertManager where
  config : AlertConfig
  cameraId : String
  frameWidth : ℚ
  frameHeight : ℚ
  frameCounter : ℕ
  violationStates : List (ℕ × ViolationRecord)
  store : Option Store

/-- Python `int(q)` for a rational: truncation toward zero. -/
def truncQ (q : ℚ) : ℤ :=
  if 0 ≤ q then ⌊q⌋ else ⌈q⌉

/-- `AlertManager._get_grid_cell` (src/alerts.py, lines 317-321).
`cell_width` is the value `frame_width / grid_size` computed in the
constructor. -/
def getGridCell (frameWidth frameHeight : ℚ) (gridSize : ℕ) (x y : ℚ) : ℤ × ℤ :=
  let cellWidth := frameWidth / (gridSize : ℚ)
  (min (truncQ (x / cellWidth)) ((gridSize : ℤ) - 1),
   min (truncQ (y / frameHeight * (gridSize : ℚ))) ((gridSize : ℤ) - 1))

/-- The Python `str` rendering of a tuple of strings, as interpolated by the
f-string in `_get_violation_hash` (quote escaping inside attribute names is
not modelled; `\x27` is the ASCII apostrophe). -/
def pyTupleRepr (l : List String) : String :=
  match l with
  | [a] => "(\x27" ++ a ++ "\x27,)"
  | _ => "(" ++ String.intercalate ", " (l.map (fun s => "\x27" ++ s ++ "\x27")) ++ ")"

/-- `AlertManager._get_violation_hash` (src/alerts.py, lines 323-327):
camera id, grid cell and the sorted missing-attribute tuple, joined by
colons. -/
def getViolationHash (cameraId : String) (gridX gridY : ℤ) (missingPpe : List String) :
    String :=
  let ppeSorted := List.insertionSort (fun a b => a ≤ b) missingPpe
  cameraId ++ ":" ++ toString gridX ++ ":" ++ toString gridY ++ ":" ++ pyTupleRepr ppeSorted

/-- `AlertManager._is_violation_hash_alerted` (src/alerts.py, lines 329-334):
`False` when the Redis client is unavailable, else Redis `EXISTS` on the
`violation_hash:` key. -/
def isViolationHashAlerted (store : Option Store) (violationHash : String) (now : ℚ) :
    Bool :=
  match store with
  | none => false
  | some s => storeExists s (Key.vhash violationHash) now

/-- `AlertManager._mark_violation_hash_alerted` (src/alerts.py, lines
336-342): `SETEX` with TTL `alert_hash_ttl_seconds`; no-op when the Redis
client is unavailable. -/
def markViolationHashAlerted (store : Option Store) (violationHash : String)
    (ttl now : ℚ) : Option Store :=
  match store with
  | none => none
  | some s => some (storeSetex s (Key.vhash violationHash) ttl now)

/-- `AlertManager._is_suppressed` (src/alerts.py, lines 344-350): `False`
when the Redis client is unavailable, else Redis `EXISTS` on the
`alert_suppression:` key of the cell. -/
def isSuppressed (store : Option Store) (cameraId : String) (gridX gridY : ℤ)
    (now : ℚ) : Bool :=
  match store with
  | none => false
  | some s => storeExists s (Key.suppr cameraId gridX gridY) now

/-- `AlertManager._set_suppression` (src/alerts.py, lines 352-369): when
`renew` is set and the key currently exists, `EXPIRE` it, otherwise `SETEX`
it; the TTL is `suppression_reset_seconds` in both cases.  No-op when the
Redis client is unavailable. -/
def setSuppression (store : Option Store) (cameraId : String) (gridX gridY : ℤ)
    (renew : Bool) (ttl now : ℚ) : Option Store :=
  match store with
  | none => none
  | some s =>
    let k := Key.suppr cameraId gridX gridY
    if renew ∧ storeExists s k now then
      some (storeExpire s k ttl now)
    else
      some (storeSetex s k ttl now)

/-- First value bound to a track id in `violation_states` (Python dict
lookup; keys are unique in a dict, so taking the first match is exact). -/
def lookupRec : List (ℕ × ViolationRecord) → ℕ → Option ViolationRecord
  | [], _ => none
  | (t, r) :: rest, tid => if t = tid then some r else lookupRec rest tid

/-- In-place update of the first entry bound to a track id (Python
`self.violation_states[tid] = ...` on an existing key). -/
def replaceRec : List (ℕ × ViolationRecord) → ℕ → ViolationRecord →
    List (ℕ × ViolationRecord)
  | [], _, _ => []
  | (t, r) :: rest, tid, r2 =>
      if t = tid then (t, r2) :: rest else (t, r) :: replaceRec rest tid r2

/-- The fresh violation record created by `update_violations` for a track id
seen for the first time (src/alerts.py, lines 429-443). -/
def newViolationRecord (now : ℚ) (fc : ℕ) (gridX gridY : ℤ) (obs : VObs) :
    ViolationRecord :=
  { violationStart := now
    firstFrame := fc
    lastSeen := now
    lastSeenFrame := fc
    consecutiveFrames := 1
    missingPpe := obs.missingPpe
    gridX := gridX
    gridY := gridY
    boxes := [obs.box]
    roiName := obs.roiName
    alerted := false }

/-- One iteration of the `for violation in violations` loop of
`AlertManager.update_violations` (src/alerts.py, lines 418-475): compute the
grid cell of the box center, then create or update the violation record of
the observed track id.  Python builds the merged missing-PPE list as
`list(set(old + new))`, whose element order is unspecified; the model fixes
the canonical duplicate-free list `(old ++ new).dedup`. -/
def updateViolationObs (frameWidth frameHeight : ℚ) (gridSize : ℕ) (fc : ℕ)
    (now : ℚ) (states : List (ℕ × ViolationRecord)) (obs : VObs) :
    List (ℕ × ViolationRecord) :=
  let cx := (obs.box.x1 + obs.box.x2) / 2
  let cy := (obs.box.y1 + obs.box.y2) / 2
  let g := getGridCell frameWidth frameHeight gridSize cx cy
  match lookupRec states obs.tid with
  | none => states ++ [(obs.tid, newViolationRecord now fc g.1 g.2 obs)]
  | some st =>
    let st1 :=
      if fc = st.lastSeenFrame + 1 then
        { st with consecutiveFrames := st.consecutiveFrames + 1 }
      else
        { st with
            consecutiveFrames := 1
            firstFrame := fc
            violationStart := now }
    let st2 :=
      { st1 with
          lastSeen := now
          lastSeenFrame := fc
          missingPpe := (st1.missingPpe ++ obs.missingPpe).dedup
          gridX := g.1
          gridY := g.2
          roiName := match obs.roiName with
                     | some r => some r
                     | none => st1.roiName
          boxes := if obs.box ∈ st1.boxes then st1.boxes
                   else st1.boxes ++ [obs.box] }
    replaceRec states obs.tid st2

/-- `AlertManager.update_violations` (src/alerts.py, lines 379-475):
increment the frame counter; drop the records of track ids absent from this
frame (immediately if never alerted, after `suppression_reset_seconds` past
`last_seen` if alerted); then fold the per-observation update over the
observations in order. -/
def updateViolations (m : AlertManager) (now : ℚ) (violations : List VObs) :
    AlertManager :=
  let fc := m.frameCounter + 1
  let active := violations.map VObs.tid
  let kept := m.violationStates.filter (fun p =>
    if active.contains p.1 then true
    else if p.2.alerted then
      !decide (m.config.suppressionResetSeconds < now - p.2.lastSeen)
    else false)
  let states := violations.foldl
    (fun s obs => updateViolationObs m.frameWidth m.frameHeight m.config.gridSize fc now s obs)
    kept
  { m with
      frameCounter := fc
      violationStates := states }

/-- `AlertManager._create_alert` (src/alerts.py, lines 620-668), restricted
to the returned `alert_data` fields in the model: the most recent box is
`boxes[-1]`, the duration is the confirmed violation duration. -/
def createAlert (cameraId : String) (frameWidth frameHeight : ℚ)
    (st : ViolationRecord) (duration : ℚ) (tid : ℕ) : AlertRecord :=
  { cameraId := cameraId
    gridX := st.gridX
    gridY := st.gridY
    personTrackId := some tid
    missingPpe := st.missingPpe
    personBox := st.boxes.getLast?
    roiName := st.roiName
    frameWidth := frameWidth
    frameHeight := frameHeight
    alertDurationSeconds := duration }

/-- The `for track_id, state in list(self.violation_states.items())` loop of
`AlertManager.check_and_generate_alerts` (src/alerts.py, lines 496-557),
threading the Redis store through the iterations in order.  Returns the
generated alerts, the updated records (in place, same order) and the final
store. -/
def checkViolationsLoop (cameraId : String) (frameWidth frameHeight : ℚ)
    (cfg : AlertConfig) (now : ℚ) :
    List (ℕ × ViolationRecord) → Option Store →
    List AlertRecord × List (ℕ × ViolationRecord) × Option Store
  | [], store => ([], [], store)
  | (tid, st) :: rest, store =>
    if st.alerted then
      let r := checkViolationsLoop cameraId frameWidth frameHeight cfg now rest store
      (r.1, (tid, st) :: r.2.1, r.2.2)
    else
      let violationDuration := now - st.violationStart
      if cfg.alertMinConsecutiveFrames ≤ st.consecutiveFrames ∧
         cfg.alertDebounceSeconds ≤ violationDuration then
        let vh := getViolationHash cameraId st.gridX st.gridY st.missingPpe
        if isViolationHashAlerted store vh now then
          let store1 :=
            if isSuppressed store cameraId st.gridX st.gridY now then
              setSuppression store cameraId st.gridX st.gridY true
                cfg.suppressionResetSeconds now
            else store
          let r := checkViolationsLoop cameraId frameWidth frameHeight cfg now rest store1
          (r.1, (tid, { st with alerted := true }) :: r.2.1, r.2.2)
        else if isSuppressed store cameraId st.gridX st.gridY now = false then
          let alert := createAlert cameraId frameWidth frameHeight st violationDuration tid
          let store1 := markViolationHashAlerted store vh cfg.alertHashTtlSeconds now
          let store2 := setSuppression store1 cameraId st.gridX st.gridY false
            cfg.suppressionResetSeconds now
          let r := checkViolationsLoop cameraId frameWidth frameHeight cfg now rest store2
          (alert :: r.1, (tid, { st with alerted := true }) :: r.2.1, r.2.2)
        else
          let store1 := setSuppression store cameraId st.gridX st.gridY true
            cfg.suppressionResetSeconds now
          let r := checkViolationsLoop cameraId frameWidth frameHeight cfg now rest store1
          (r.1, (tid, { st with alerted := true }) :: r.2.1, r.2.2)
      else
        let r := checkViolationsLoop cameraId frameWidth frameHeight cfg now rest store
        (r.1, (tid, st) :: r.2.1, r.2.2)

/-- `AlertManager.check_and_generate_alerts` (src/alerts.py, lines 477-557):
run the loop over the current violation records and return the generated
alerts together with the updated manager. -/
def checkAndGenerateAlerts (m : AlertManager) (now : ℚ) :
    List AlertRecord × AlertManager :=
  let r := checkViolationsLoop m.cameraId m.frameWidth m.frameHeight m.config now
    m.violationStates m.store
  (r.1, { m with
            violationStates := r.2.1
            store := r.2.2 })

/-- A concrete manager (camera "cam", 640x480 frame, default configuration,
Redis unavailable) used to exercise `update_violations` on an explicit
input schedule. -/
def c9Mgr0 : AlertManager :=
  { config := {}
    cameraId := "cam"
    frameWidth := 640
    frameHeight := 480
    frameCounter := 0
    violationStates := []
    store := none }

/-- The box observed at tick `n` of the schedule: `[n, 0, n+2, 2]`; all
boxes of the schedule are pairwise distinct. -/
def c9Box (n : ℕ) : Box4 :=
  { x1 := (n : ℚ)
    y1 := 0
    x2 := (n : ℚ) + 2
    y2 := 2 }

/-- The single observation fed to `update_violations` at tick `n`: track id
0, the tick-indexed box, missing attribute "helmet". -/
def c9Obs (n : ℕ) : VObs :=
  { tid := 0
    box := c9Box n
    missingPpe := ["helmet"]
    roiName := none }

/-- The manager after `n` calls of `update_violations`, one per tick, each
observing track id 0 with a fresh distinct box at time `n`. -/
def c9Run : ℕ → AlertManager
  | 0 => c9Mgr0
  | n + 1 => updateViolations (c9Run n) (n : ℚ) [c9Obs n]

/-- Length of the stored box sequence of track id 0 after `n` ticks of the
schedule. -/
def c9BoxLen (n : ℕ) : ℕ :=
  match lookupRec (c9Run n).violationStates 0 with
  | some r => r.boxes.length
  | none => 0

/-! ### Helper lemmas about the TTL store -/

theorem storeErase_key_ne (s : Store) (k : Key) :
    ∀ p ∈ storeErase s k, p.1 ≠ k := by
  induction s with
  | nil => intro p hp; simp [storeErase] at hp
  | cons hd tl ih =>
    intro p hp
    by_cases h : hd.1 = k
    · apply ih
      simpa [storeErase, h] using hp
    · rcases hd with ⟨k2, e⟩
      simp only [storeErase, if_neg h, List.mem_cons] at hp
      rcases hp with rfl | hp
      · exact h
      · exact ih p hp

theorem storeLookup_erase_ne (s : Store) (k k2 : Key) (h : k2 ≠ k) :
    storeLookup (storeErase s k) k2 = storeLookup s k2 := by
  induction s with
  | nil => rfl
  | cons hd tl ih =>
    rcases hd with ⟨k3, e⟩
    by_cases h3 : k3 = k
    · have hne : k3 ≠ k2 := fun hh => h (hh.symm.trans h3)
      simp only [storeErase, if_pos h3, storeLookup, if_neg hne]
      exact ih
    · simp only [storeErase, if_neg h3, storeLookup]
      by_cases h4 : k3 = k2
      · simp [h4]
      · simp [h4, ih]

theorem storeLookup_erase_self (s : Store) (k : Key) :
    storeLookup (storeErase s k) k = none := by
  induction s with
  | nil => rfl
  | cons hd tl ih =>
    rcases hd with ⟨k3, e⟩
    by_cases h3 : k3 = k
    · simpa [storeErase, h3] using ih
    · simp [storeErase, h3, storeLookup, ih]

theorem storeLookup_setex_self (s : Store) (k : Key) (ttl now : ℚ) :
    storeLookup (storeSetex s k ttl now) k = some (now + ttl) := by
  simp [storeSetex, storeLookup]

theorem storeLookup_setex_ne (s : Store) (k k2 : Key) (ttl now : ℚ) (h : k2 ≠ k) :
    storeLookup (storeSetex s k ttl now) k2 = storeLookup s k2 := by
  simp only [storeSetex, storeLookup]
  rw [if_neg (fun hh => h hh.symm)]
  exact storeLookup_erase_ne s k k2 h

/-! ### Unfolding equations for the debouncer step -/

theorem updatePpeKey_true_eq (debounce now : ℚ) (st : AttrState) (conf : ℚ) :
    updatePpeKey debounce now st true conf =
      (if (if 7/10 < conf then (1 : ℚ) else if 1/2 < conf then 2 else 3) ≤
            now - st.presentSince.getD now ∨ st.ppe = some true then
        ({ ppe := some true
           presentSince := some (st.presentSince.getD now)
           missingSince := none
           confidence := some conf }, PpeOut.yes)
      else
        ({ st with
            presentSince := some (st.presentSince.getD now)
            missingSince := none
            confidence := some conf }, PpeOut.pending)) := rfl

theorem updatePpeKey_false_eq (debounce now : ℚ) (st : AttrState) (conf : ℚ) :
    updatePpeKey debounce now st false conf =
      (if (if st.ppe = some true then debounce else debounce * (1/2)) ≤
            now - st.missingSince.getD now then
        ({ st with
            ppe := some false
            presentSince := none
            missingSince := some (st.missingSince.getD now) }, PpeOut.no)
      else
        ({ st with
            presentSince := none
            missingSince := some (st.missingSince.getD now) },
         if st.ppe = some true then PpeOut.pending else PpeOut.no)) := rfl

/-! ### Claim theorems: fail-open predicates, grid cell, debouncer -/

/-- C5: whenever the backing TTL store is unavailable (the Redis client is
`None`), `_is_violation_hash_alerted` and `_is_suppressed` both return false
for every key, preserving detection availability (fail-open). -/
theorem C5_fail_open (vh : String) (cameraId : String) (gridX gridY : ℤ)
    (now : ℚ) :
    isViolationHashAlerted none vh now = false ∧
    isSuppressed none cameraId gridX gridY now = false :=
  ⟨rfl, rfl⟩

/-- C10: for nonnegative coordinates the grid-cell components never exceed
`grid_size - 1`, and for points strictly inside the frame they are also
nonnegative, so every cell used as a dedup or suppression key lies in the
fixed N x N partition. -/
theorem C10_grid_cell_in_partition (frameWidth frameHeight : ℚ) (gridSize : ℕ)
    (x y : ℚ) (hfw : 0 < frameWidth) (hfh : 0 < frameHeight) (hgs : 0 < gridSize)
    (hx : 0 ≤ x) (hy : 0 ≤ y) :
    (getGridCell frameWidth frameHeight gridSize x y).1 ≤ (gridSize : ℤ) - 1 ∧
    (getGridCell frameWidth frameHeight gridSize x y).2 ≤ (gridSize : ℤ) - 1 ∧
    (x < frameWidth → 0 ≤ (getGridCell frameWidth frameHeight gridSize x y).1) ∧
    (y < frameHeight → 0 ≤ (getGridCell frameWidth frameHeight gridSize x y).2) := by
  have hgsQ : (0 : ℚ) < (gridSize : ℚ) := by exact_mod_cast hgs
  have hgsZ : (1 : ℤ) ≤ (gridSize : ℤ) := by exact_mod_cast hgs
  have hcw : 0 < frameWidth / (gridSize : ℚ) := div_pos hfw hgsQ
  have hq1 : 0 ≤ x / (frameWidth / (gridSize : ℚ)) := div_nonneg hx (le_of_lt hcw)
  have hq2 : 0 ≤ y / frameHeight * (gridSize : ℚ) :=
    mul_nonneg (div_nonneg hy (le_of_lt hfh)) (le_of_lt hgsQ)
  have ht1 : 0 ≤ truncQ (x / (frameWidth / (gridSize : ℚ))) := by
    rw [truncQ, if_pos hq1]
    exact Int.le_floor.mpr (by exact_mod_cast hq1)
  have ht2 : 0 ≤ truncQ (y / frameHeight * (gridSize : ℚ)) := by
    rw [truncQ, if_pos hq2]
    exact Int.le_floor.mpr (by exact_mod_cast hq2)
  refine ⟨min_le_right _ _, min_le_right _ _, fun _ => ?_, fun _ => ?_⟩
  · exact le_min ht1 (by omega)
  · exact le_min ht2 (by omega)

/-- C7: on an observed-true input the debouncer emits true exactly when the
attribute is already sticky-confirmed or the continuous presence duration
(now minus present_since, the latter set once and never overwritten while
continuously true) reaches the confidence-tiered threshold 1.0s
(confidence above 0.7), 2.0s (above 0.5) or 3.0s; otherwise it emits
pending. -/
theorem C7_observed_true_tiers (debounce now : ℚ) (st : AttrState) (conf : ℚ) :
    (updatePpeKey debounce now st true conf).1.presentSince =
      some (st.presentSince.getD now) ∧
    ((updatePpeKey debounce now st true conf).2 = PpeOut.yes ↔
      (st.ppe = some true ∨
        (if 7/10 < conf then (1 : ℚ) else if 1/2 < conf then 2 else 3) ≤
          now - st.presentSince.getD now)) ∧
    ((updatePpeKey debounce now st true conf).2 = PpeOut.pending ↔
      ¬(st.ppe = some true ∨
        (if 7/10 < conf then (1 : ℚ) else if 1/2 < conf then 2 else 3) ≤
          now - st.presentSince.getD now)) := by
  rw [updatePpeKey_true_eq]
  by_cases h : ((if 7/10 < conf then (1 : ℚ) else if 1/2 < conf then 2 else 3) ≤
      now - st.presentSince.getD now ∨ st.ppe = some true)
  · rw [if_pos h]
    exact ⟨rfl, iff_of_true rfl (Or.symm h),
      iff_of_false (by simp) (not_not_intro (Or.symm h))⟩
  · rw [if_neg h]
    exact ⟨rfl, iff_of_false (by simp) (fun hc => h (Or.symm hc)),
      iff_of_true rfl (fun hc => h (Or.symm hc))⟩

/-- C8: on an observed-false input for an attribute not sticky-confirmed
true, the debouncer emits false immediately on that very tick (never
pending); the sticky confirmed state becomes false once the missing duration
(now minus missing_since, set once) reaches half the configured debounce
time, and is left unchanged before that. -/
theorem C8_never_confirmed_immediate_false (debounce now : ℚ) (st : AttrState)
    (conf : ℚ) (h : st.ppe ≠ some true) :
    (updatePpeKey debounce now st false conf).2 = PpeOut.no ∧
    (updatePpeKey debounce now st false conf).1.missingSince =
      some (st.missingSince.getD now) ∧
    (debounce * (1/2) ≤ now - st.missingSince.getD now →
      (updatePpeKey debounce now st false conf).1.ppe = some false) ∧
    (now - st.missingSince.getD now < debounce * (1/2) →
      (updatePpeKey debounce now st false conf).1.ppe = st.ppe) := by
  rw [updatePpeKey_false_eq, if_neg h]
  by_cases hd : debounce * (1/2) ≤ now - st.missingSince.getD now
  · rw [if_pos hd]
    exact ⟨rfl, rfl, fun _ => rfl, fun hlt => absurd hd (not_le.mpr hlt)⟩
  · rw [if_neg hd, if_neg h]
    exact ⟨rfl, rfl, fun hle => absurd hle hd, fun _ => rfl⟩

/-- C8 witness: a concrete never-confirmed attribute observed false emits
false immediately. -/
theorem C8_witness :
    (⟨some false, none, some 0, none⟩ : AttrState).ppe ≠ some true ∧
    (updatePpeKey 8 1 ⟨some false, none, some 0, none⟩ false (1/2)).2 = PpeOut.no :=
  ⟨by decide,
   (C8_never_confirmed_immediate_false 8 1 ⟨some false, none, some 0, none⟩ (1/2)
     (by decide)).1⟩

/-- C10 witness: concrete 640x480 frame, 8x8 grid, point (100, 479). -/
theorem C10_witness :
    (0 : ℚ) < 640 ∧ (0 : ℚ) < 480 ∧ 0 < 8 ∧ (0 : ℚ) ≤ 100 ∧ (0 : ℚ) ≤ 479 ∧
    (getGridCell 640 480 8 100 479).1 ≤ (8 : ℤ) - 1 ∧
    (getGridCell 640 480 8 100 479).2 ≤ (8 : ℤ) - 1 ∧
    0 ≤ (getGridCell 640 480 8 100 479).1 ∧
    0 ≤ (getGridCell 640 480 8 100 479).2 :=
  ⟨by decide, by decide, by decide, by decide, by decide,
   (C10_grid_cell_in_partition 640 480 8 100 479 (by decide) (by decide) (by decide)
     (by decide) (by decide)).1,
   (C10_grid_cell_in_partition 640 480 8 100 479 (by decide) (by decide) (by decide)
     (by decide) (by decide)).2.1,
   (C10_grid_cell_in_partition 640 480 8 100 479 (by decide) (by decide) (by decide)
     (by decide) (by decide)).2.2.1 (by decide),
   (C10_grid_cell_in_partition 640 480 8 100 479 (by decide) (by decide) (by decide)
     (by decide) (by decide)).2.2.2 (by decide)⟩

/-- C3 counterexample: starting from a fresh attribute, two observed-true
ticks (confidence 0.9) make the debouncer emit true at time 1; at time 2 an
observed-false arrives whose missing duration (0) is far below the release
threshold (8), and the emitted output is "pending" — contradicting the
claim that after a true emission the output is never pending while the
attribute remains confirmed-true and the release threshold has not been
reached. -/
theorem C3_counterexample :
    (updatePpeKey 8 1 (updatePpeKey 8 0 ⟨none, none, none, none⟩ true (9/10)).1
      true (9/10)).2 = PpeOut.yes ∧
    (updatePpeKey 8 2
      (updatePpeKey 8 1 (updatePpeKey 8 0 ⟨none, none, none, none⟩ true (9/10)).1
        true (9/10)).1 false (1/2)).2 = PpeOut.pending := by
  decide

/-- C3 (amended): once true has been emitted — equivalently while the
attribute is sticky-confirmed true in state — an observed-true tick emits
true and keeps the confirmed state; an observed-false tick emits pending
(not false, not true) while the missing duration is below the full debounce
threshold, and emits false and releases the confirmed state exactly once
that threshold is reached. -/
theorem C3_amended_sticky_grace (debounce now conf : ℚ) (st : AttrState)
    (v : Bool) (h : st.ppe = some true) :
    (v = true → (updatePpeKey debounce now st v conf).2 = PpeOut.yes ∧
      (updatePpeKey debounce now st v conf).1.ppe = some true) ∧
    (v = false →
      ((updatePpeKey debounce now st v conf).2 = PpeOut.pending ↔
        now - st.missingSince.getD now < debounce) ∧
      ((updatePpeKey debounce now st v conf).2 = PpeOut.no ↔
        debounce ≤ now - st.missingSince.getD now) ∧
      (debounce ≤ now - st.missingSince.getD now →
        (updatePpeKey debounce now st v conf).1.ppe = some false) ∧
      (now - st.missingSince.getD now < debounce →
        (updatePpeKey debounce now st v conf).1.ppe = some true)) := by
  constructor
  · intro hv; subst hv
    rw [updatePpeKey_true_eq, if_pos (Or.inr h)]
    exact ⟨rfl, rfl⟩
  · intro hv; subst hv
    rw [updatePpeKey_false_eq, if_pos h]
    by_cases hd : debounce ≤ now - st.missingSince.getD now
    · rw [if_pos hd]
      exact ⟨iff_of_false (by simp) (not_lt.mpr hd), iff_of_true rfl hd,
        fun _ => rfl, fun hlt => absurd hd (not_le.mpr hlt)⟩
    · rw [if_neg hd, if_pos h]
      exact ⟨iff_of_true rfl (not_le.mp hd), iff_of_false (by simp) hd,
        fun hle => absurd hle hd, fun _ => h⟩

/-- C3 witness for the amended claim: a concrete confirmed-true attribute,
observed false at time 1 with missing duration 1 below the debounce 8,
emits pending. -/
theorem C3_amended_witness :
    (⟨some true, none, some 0, none⟩ : AttrState).ppe = some true ∧
    (updatePpeKey 8 1 ⟨some true, none, some 0, none⟩ false (1/2)).2 =
      PpeOut.pending :=
  ⟨by decide,
   (((C3_amended_sticky_grace 8 1 (1/2) ⟨some true, none, some 0, none⟩ false
       (by decide)).2 rfl).1).mpr (by decide)⟩

/-- C6 counterexample: renewal on an absent (hence also on an expired)
suppression entry is not a no-op — on an empty store, `_set_suppression`
with `renew=True` falls into the `SETEX` branch and creates the entry,
which is live afterwards. -/
theorem C6_counterexample :
    setSuppression (some []) "cam" 0 0 true 20 0 =
      some [(Key.suppr "cam" 0 0, 20)] ∧
    isSuppressed (setSuppression (some []) "cam" 0 0 true 20 0) "cam" 0 0 5 =
      true := by
  decide

/-- C6 (amended): renew on an unexpired suppression entry resets its expiry
to `now + ttl` in place, leaving exactly one entry for the cell and all
other keys untouched; renew on an absent or expired entry is not a no-op —
it creates the entry with the full TTL, exactly as a plain suppress does. -/
theorem C6_amended_renew (s : Store) (cameraId : String) (gridX gridY : ℤ)
    (ttl now : ℚ) (httl : 0 < ttl) :
    setSuppression (some s) cameraId gridX gridY true ttl now =
      some ((Key.suppr cameraId gridX gridY, now + ttl) ::
        storeErase s (Key.suppr cameraId gridX gridY)) ∧
    (∀ p ∈ storeErase s (Key.suppr cameraId gridX gridY),
      p.1 ≠ Key.suppr cameraId gridX gridY) ∧
    (∀ k2, k2 ≠ Key.suppr cameraId gridX gridY →
      storeLookup ((Key.suppr cameraId gridX gridY, now + ttl) ::
          storeErase s (Key.suppr cameraId gridX gridY)) k2 = storeLookup s k2) ∧
    storeExists ((Key.suppr cameraId gridX gridY, now + ttl) ::
        storeErase s (Key.suppr cameraId gridX gridY))
      (Key.suppr cameraId gridX gridY) now = true := by
  refine ⟨?_, storeErase_key_ne s _, ?_, ?_⟩
  · by_cases hs : storeExists s (Key.suppr cameraId gridX gridY) now = true
    · simp only [setSuppression, if_pos (And.intro trivial hs)]
      cases hl : storeLookup s (Key.suppr cameraId gridX gridY) with
      | none => rw [storeExists, hl] at hs; exact absurd hs (by simp)
      | some e => simp [storeExpire, hl]
    · have hs2 : ¬(True ∧ storeExists s (Key.suppr cameraId gridX gridY) now = true) :=
        fun hc => hs hc.2
      simp only [setSuppression]
      rw [if_neg (by simpa using hs2)]
      rfl
  · intro k2 hne
    rw [storeLookup, if_neg (fun hh => hne hh.symm)]
    exact storeLookup_erase_ne s _ k2 hne
  · rw [storeExists, storeLookup, if_pos rfl]
    simp only [decide_eq_true_eq]
    linarith

/-- C6 witness for the amended claim: renewing on the empty store creates a
live suppression entry with the full TTL. -/
theorem C6_amended_witness :
    (0 : ℚ) < 20 ∧
    setSuppression (some []) "c" 0 0 true 20 0 = some [(Key.suppr "c" 0 0, 20)] ∧
    storeExists [(Key.suppr "c" 0 0, (20 : ℚ))] (Key.suppr "c" 0 0) 0 = true :=
  ⟨by decide, (C6_amended_renew [] "c" 0 0 20 0 (by decide)).1,
   (C6_amended_renew [] "c" 0 0 20 0 (by decide)).2.2.2⟩

/-! ### Helper lemmas about violation-state association lists -/

theorem lookupRec_eq_none_of_not_mem (l : List (ℕ × ViolationRecord)) (tid : ℕ)
    (h : tid ∉ l.map Prod.fst) : lookupRec l tid = none := by
  induction l with
  | nil => rfl
  | cons hd tl ih =>
    rcases hd with ⟨t, r⟩
    simp only [List.map_cons, List.mem_cons] at h
    push_neg at h
    rw [lookupRec, if_neg (fun hh => h.1 hh.symm)]
    exact ih h.2

theorem lookupRec_replace_self (l : List (ℕ × ViolationRecord)) (tid : ℕ)
    (st r : ViolationRecord) (h : lookupRec l tid = some st) :
    lookupRec (replaceRec l tid r) tid = some r := by
  induction l with
  | nil => simp [lookupRec] at h
  | cons hd tl ih =>
    rcases hd with ⟨t, r2⟩
    by_cases ht : t = tid
    · simp [replaceRec, ht, lookupRec]
    · rw [lookupRec, if_neg ht] at h
      rw [replaceRec, if_neg ht, lookupRec, if_neg ht]
      exact ih h

theorem lookupRec_replace_ne (l : List (ℕ × ViolationRecord)) (t tid : ℕ)
    (r : ViolationRecord) (h : t ≠ tid) :
    lookupRec (replaceRec l t r) tid = lookupRec l tid := by
  induction l with
  | nil => rfl
  | cons hd tl ih =>
    rcases hd with ⟨t2, r2⟩
    by_cases ht : t2 = t
    · subst ht
      simp only [replaceRec, if_pos rfl, lookupRec]
      rw [if_neg (fun hh => h hh), if_neg (fun hh => h hh)]
    · simp only [replaceRec, if_neg ht, lookupRec]
      by_cases h2 : t2 = tid
      · simp [h2]
      · rw [if_neg h2, if_neg h2]
        exact ih

theorem lookupRec_append_one_self (l : List (ℕ × ViolationRecord)) (tid : ℕ)
    (r : ViolationRecord) (h : lookupRec l tid = none) :
    lookupRec (l ++ [(tid, r)]) tid = some r := by
  induction l with
  | nil => simp [lookupRec]
  | cons hd tl ih =>
    rcases hd with ⟨t, r2⟩
    rw [lookupRec] at h
    by_cases ht : t = tid
    · rw [if_pos ht] at h; exact absurd h (by simp)
    · rw [if_neg ht] at h
      simp only [List.cons_append, lookupRec, if_neg ht]
      exact ih h

theorem lookupRec_append_one_ne (l : List (ℕ × ViolationRecord)) (t tid : ℕ)
    (r : ViolationRecord) (h : t ≠ tid) :
    lookupRec (l ++ [(t, r)]) tid = lookupRec l tid := by
  induction l with
  | nil => simp [lookupRec, if_neg h]
  | cons hd tl ih =>
    rcases hd with ⟨t2, r2⟩
    simp only [List.cons_append, lookupRec]
    by_cases h2 : t2 = tid
    · simp [h2]
    · rw [if_neg h2, if_neg h2]
      exact ih

theorem lookupRec_updateObs_ne (frameWidth frameHeight : ℚ) (gridSize fc : ℕ)
    (now : ℚ) (states : List (ℕ × ViolationRecord)) (obs : VObs) (tid : ℕ)
    (h : obs.tid ≠ tid) :
    lookupRec (updateViolationObs frameWidth frameHeight gridSize fc now states obs) tid =
      lookupRec states tid := by
  cases hl : lookupRec states obs.tid with
  | none =>
    simp only [updateViolationObs, hl]
    exact lookupRec_append_one_ne states obs.tid tid _ h
  | some st =>
    simp only [updateViolationObs, hl]
    exact lookupRec_replace_ne states obs.tid tid _ h

theorem lookupRec_foldl_not_mem (frameWidth frameHeight : ℚ) (gridSize fc : ℕ)
    (now : ℚ) (obs : List VObs) (states : List (ℕ × ViolationRecord)) (tid : ℕ)
    (h : tid ∉ obs.map VObs.tid) :
    lookupRec (obs.foldl
      (fun s o => updateViolationObs frameWidth frameHeight gridSize fc now s o)
      states) tid = lookupRec states tid := by
  induction obs generalizing states with
  | nil => rfl
  | cons o rest ih =>
    simp only [List.map_cons, List.mem_cons] at h
    push_neg at h
    rw [List.foldl_cons, ih _ h.2,
      lookupRec_updateObs_ne _ _ _ _ _ _ _ _ (fun hh => h.1 hh.symm)]

theorem lookupRec_filter_of_keep (l : List (ℕ × ViolationRecord)) (tid : ℕ)
    (p : ℕ × ViolationRecord → Bool) (h : ∀ r, p (tid, r) = true) :
    lookupRec (l.filter p) tid = lookupRec l tid := by
  induction l with
  | nil => rfl
  | cons hd tl ih =>
    rcases hd with ⟨t, r⟩
    by_cases ht : t = tid
    · subst ht
      rw [List.filter_cons_of_pos (h r)]
      simp [lookupRec]
    · rw [lookupRec, if_neg ht, ← ih]
      cases hp : p (t, r) with
      | true => rw [List.filter_cons_of_pos hp, lookupRec, if_neg ht]
      | false => rw [List.filter_cons_of_neg (by simp [hp])]

theorem lookupRec_filter_none (l : List (ℕ × ViolationRecord)) (tid : ℕ)
    (p : ℕ × ViolationRecord → Bool) (h : lookupRec l tid = none) :
    lookupRec (l.filter p) tid = none := by
  induction l with
  | nil => rfl
  | cons hd tl ih =>
    rcases hd with ⟨t, r⟩
    rw [lookupRec] at h
    by_cases ht : t = tid
    · rw [if_pos ht] at h; exact absurd h (by simp)
    · rw [if_neg ht] at h
      cases hp : p (t, r) with
      | true => rw [List.filter_cons_of_pos hp, lookupRec, if_neg ht]; exact ih h
      | false => rw [List.filter_cons_of_neg (by simp [hp])]; exact ih h

theorem lookupRec_filter_nodup_remove (l : List (ℕ × ViolationRecord)) (tid : ℕ)
    (st : ViolationRecord) (p : ℕ × ViolationRecord → Bool)
    (hnd : (l.map Prod.fst).Nodup) (h : lookupRec l tid = some st)
    (hp : p (tid, st) = false) :
    lookupRec (l.filter p) tid = none := by
  induction l with
  | nil => simp [lookupRec] at h
  | cons hd tl ih =>
    rcases hd with ⟨t, r⟩
    simp only [List.map_cons, List.nodup_cons] at hnd
    by_cases ht : t = tid
    · subst ht
      rw [lookupRec, if_pos rfl] at h
      have hr : r = st := by injection h
      subst hr
      rw [List.filter_cons_of_neg (by simp [hp])]
      exact lookupRec_filter_none tl t p (lookupRec_eq_none_of_not_mem tl t hnd.1)
    · rw [lookupRec, if_neg ht] at h
      cases hpt : p (t, r) with
      | true =>
        rw [List.filter_cons_of_pos hpt, lookupRec, if_neg ht]
        exact ih hnd.2 h
      | false =>
        rw [List.filter_cons_of_neg (by simp [hpt])]
        exact ih hnd.2 h

theorem updateViolations_states_eq (m : AlertManager) (now : ℚ)
    (violations : List VObs) :
    (updateViolations m now violations).violationStates =
      violations.foldl
        (fun s obs => updateViolationObs m.frameWidth m.frameHeight
          m.config.gridSize (m.frameCounter + 1) now s obs)
        (m.violationStates.filter (fun p =>
          if (violations.map VObs.tid).contains p.1 then true
          else if p.2.alerted then
            !decide (m.config.suppressionResetSeconds < now - p.2.lastSeen)
          else false)) := rfl

theorem lookupRec_updateObs_discont (frameWidth frameHeight : ℚ) (gridSize fc : ℕ)
    (now : ℚ) (states : List (ℕ × ViolationRecord)) (o : VObs)
    (st : ViolationRecord) (hl : lookupRec states o.tid = some st)
    (hfc : fc ≠ st.lastSeenFrame + 1) :
    ∃ st2,
      lookupRec (updateViolationObs frameWidth frameHeight gridSize fc now states o)
        o.tid = some st2 ∧
      st2.consecutiveFrames = 1 ∧ st2.violationStart = now := by
  simp only [updateViolationObs, hl]
  rw [if_neg hfc]
  exact ⟨_, lookupRec_replace_self states o.tid st _ hl, rfl, rfl⟩

theorem lookupRec_updateObs_new (frameWidth frameHeight : ℚ) (gridSize fc : ℕ)
    (now : ℚ) (states : List (ℕ × ViolationRecord)) (o : VObs)
    (hl : lookupRec states o.tid = none) :
    ∃ st2,
      lookupRec (updateViolationObs frameWidth frameHeight gridSize fc now states o)
        o.tid = some st2 ∧
      st2.consecutiveFrames = 1 ∧ st2.violationStart = now := by
  simp only [updateViolationObs, hl]
  exact ⟨_, lookupRec_append_one_self states o.tid _ hl, rfl, rfl⟩

/-! ### Claim theorems: streak invalidation -/

/-- C4: for a tracked identity with a non-alerted violation record, (a) an
observation whose frame counter is not the record's last seen frame plus one
resets the consecutive frame count to exactly 1 and violation_start to the
current tick time; and (b) a one-tick absence deletes the non-alerted record
outright, so a reappearance creates a fresh record with count 1 and
violation_start equal to the reappearance time.  In both cases the count
never increments across a frame gap. -/
theorem C4_streak_reset :
    (∀ (m : AlertManager) (now : ℚ) (pre post : List VObs) (o : VObs)
       (st : ViolationRecord),
      lookupRec m.violationStates o.tid = some st →
      st.alerted = false →
      o.tid ∉ pre.map VObs.tid →
      o.tid ∉ post.map VObs.tid →
      m.frameCounter + 1 ≠ st.lastSeenFrame + 1 →
      ∃ st2,
        lookupRec (updateViolations m now (pre ++ o :: post)).violationStates
          o.tid = some st2 ∧
        st2.consecutiveFrames = 1 ∧ st2.violationStart = now) ∧
    (∀ (m : AlertManager) (now1 now2 : ℚ) (obs1 pre post : List VObs) (o : VObs)
       (st : ViolationRecord),
      (m.violationStates.map Prod.fst).Nodup →
      lookupRec m.violationStates o.tid = some st →
      st.alerted = false →
      o.tid ∉ obs1.map VObs.tid →
      o.tid ∉ pre.map VObs.tid →
      o.tid ∉ post.map VObs.tid →
      lookupRec (updateViolations m now1 obs1).violationStates o.tid = none ∧
      ∃ st2,
        lookupRec (updateViolations (updateViolations m now1 obs1) now2
          (pre ++ o :: post)).violationStates o.tid = some st2 ∧
        st2.consecutiveFrames = 1 ∧ st2.violationStart = now2) := by
  constructor
  · intro m now pre post o st hl halert hpre hpost hfc
    have hmem : o.tid ∈ (pre ++ o :: post).map VObs.tid := by simp
    rw [updateViolations_states_eq, List.foldl_append, List.foldl_cons,
      lookupRec_foldl_not_mem _ _ _ _ _ post _ o.tid hpost]
    exact lookupRec_updateObs_discont m.frameWidth m.frameHeight m.config.gridSize
      (m.frameCounter + 1) now _ o st
      (by
        rw [lookupRec_foldl_not_mem _ _ _ _ _ pre _ o.tid hpre,
          lookupRec_filter_of_keep _ _ _ (fun r => by simp [hmem])]
        exact hl) hfc
  · intro m now1 now2 obs1 pre post o st hnd hl halert hobs1 hpre hpost
    have hm1 : lookupRec (updateViolations m now1 obs1).violationStates o.tid =
        none := by
      rw [updateViolations_states_eq,
        lookupRec_foldl_not_mem _ _ _ _ _ obs1 _ o.tid hobs1]
      exact lookupRec_filter_nodup_remove _ _ st _ hnd hl
        (by simp [hobs1, halert])
    refine ⟨hm1, ?_⟩
    rw [updateViolations_states_eq, List.foldl_append, List.foldl_cons,
      lookupRec_foldl_not_mem _ _ _ _ _ post _ o.tid hpost]
    exact lookupRec_updateObs_new (updateViolations m now1 obs1).frameWidth
      (updateViolations m now1 obs1).frameHeight
      (updateViolations m now1 obs1).config.gridSize
      ((updateViolations m now1 obs1).frameCounter + 1) now2 _ o
      (by
        rw [lookupRec_foldl_not_mem _ _ _ _ _ pre _ o.tid hpre]
        exact lookupRec_filter_none _ _ _ hm1)

/-- C4 witness: a concrete non-alerted record for track id 5, a one-tick
absence at time 8, then a reappearance at time 9 yields a record with
consecutive count 1 and violation start 9. -/
theorem C4_witness :
    (let r : ViolationRecord :=
      ⟨0, 1, 5, 5, 5, ["helmet"], 0, 0, [⟨0, 0, 2, 2⟩], none, false⟩
     let m : AlertManager := ⟨{}, "cam", 640, 480, 7, [(5, r)], none⟩
     let o : VObs := ⟨5, ⟨0, 0, 2, 2⟩, ["helmet"], none⟩
     (m.violationStates.map Prod.fst).Nodup ∧
     lookupRec m.violationStates o.tid = some r ∧
     r.alerted = false ∧
     (lookupRec (updateViolations m 8 []).violationStates o.tid = none ∧
      ∃ st2,
        lookupRec (updateViolations (updateViolations m 8 []) 9
          ([] ++ o :: [])).violationStates o.tid = some st2 ∧
        st2.consecutiveFrames = 1 ∧ st2.violationStart = 9)) :=
  ⟨by decide, by decide, by decide,
   C4_streak_reset.2 ⟨{}, "cam", 640, 480, 7,
       [(5, ⟨0, 1, 5, 5, 5, ["helmet"], 0, 0, [⟨0, 0, 2, 2⟩], none, false⟩)], none⟩
     8 9 [] [] [] ⟨5, ⟨0, 0, 2, 2⟩, ["helmet"], none⟩
     ⟨0, 1, 5, 5, 5, ["helmet"], 0, 0, [⟨0, 0, 2, 2⟩], none, false⟩
     (by decide) (by decide) (by decide) (by decide) (by decide) (by decide)⟩

/-! ### Helper lemmas about the alert-check loop -/

theorem checkLoop_cons_shape (cameraId : String) (fw fh : ℚ) (cfg : AlertConfig)
    (now : ℚ) (t : ℕ) (r : ViolationRecord) (rest : List (ℕ × ViolationRecord))
    (store : Option Store) :
    ∃ alerts1 r2 store1,
      checkViolationsLoop cameraId fw fh cfg now ((t, r) :: rest) store =
        (alerts1 ++ (checkViolationsLoop cameraId fw fh cfg now rest store1).1,
         (t, r2) :: (checkViolationsLoop cameraId fw fh cfg now rest store1).2.1,
         (checkViolationsLoop cameraId fw fh cfg now rest store1).2.2) ∧
      (∀ a ∈ alerts1, a.personTrackId = some t) ∧
      (r.alerted = false →
        ¬(cfg.alertMinConsecutiveFrames ≤ r.consecutiveFrames ∧
          cfg.alertDebounceSeconds ≤ now - r.violationStart) →
        alerts1 = [] ∧ r2 = r ∧ store1 = store) := by
  simp only [checkViolationsLoop]
  by_cases h1 : r.alerted = true
  · rw [if_pos h1]
    exact ⟨[], r, store, rfl, by simp, fun hf _ => by rw [hf] at h1; cases h1⟩
  · rw [if_neg h1]
    by_cases h2 : cfg.alertMinConsecutiveFrames ≤ r.consecutiveFrames ∧
        cfg.alertDebounceSeconds ≤ now - r.violationStart
    · rw [if_pos h2]
      by_cases h3 : isViolationHashAlerted store
          (getViolationHash cameraId r.gridX r.gridY r.missingPpe) now = true
      · rw [if_pos h3]
        refine ⟨[], { r with alerted := true }, _, rfl, by simp, fun _ hnc => absurd h2 hnc⟩
      · rw [if_neg h3]
        by_cases h4 : isSuppressed store cameraId r.gridX r.gridY now = false
        · rw [if_pos h4]
          refine ⟨[createAlert cameraId fw fh r (now - r.violationStart) t],
            { r with alerted := true }, _, rfl, ?_, fun _ hnc => absurd h2 hnc⟩
          intro a ha
          rcases List.mem_singleton.mp ha with rfl
          rfl
        · rw [if_neg h4]
          exact ⟨[], { r with alerted := true }, _, rfl, by simp,
            fun _ hnc => absurd h2 hnc⟩
    · rw [if_neg h2]
      exact ⟨[], r, store, rfl, by simp, fun _ _ => ⟨rfl, rfl, rfl⟩⟩

theorem checkLoop_alert_from_member (cameraId : String) (fw fh : ℚ)
    (cfg : AlertConfig) (now : ℚ) (l : List (ℕ × ViolationRecord)) :
    ∀ store, ∀ a ∈ (checkViolationsLoop cameraId fw fh cfg now l store).1,
      ∃ p, p ∈ l ∧ a.personTrackId = some p.1 := by
  induction l with
  | nil => intro store a ha; simp [checkViolationsLoop] at ha
  | cons hd rest ih =>
    rcases hd with ⟨t, r⟩
    intro store a ha
    obtain ⟨alerts1, r2, store1, heq, hmem, -⟩ :=
      checkLoop_cons_shape cameraId fw fh cfg now t r rest store
    rw [heq] at ha
    rcases List.mem_append.mp ha with h | h
    · exact ⟨(t, r), List.mem_cons_self _ _, hmem a h⟩
    · obtain ⟨p, hp, he⟩ := ih store1 a h
      exact ⟨p, List.mem_cons_of_mem _ hp, he⟩

theorem checkLoop_unconfirmed_untouched (cameraId : String) (fw fh : ℚ)
    (cfg : AlertConfig) (now : ℚ) (l : List (ℕ × ViolationRecord)) :
    ∀ store (tid : ℕ) (st : ViolationRecord),
      (l.map Prod.fst).Nodup →
      lookupRec l tid = some st →
      st.alerted = false →
      ¬(cfg.alertMinConsecutiveFrames ≤ st.consecutiveFrames ∧
        cfg.alertDebounceSeconds ≤ now - st.violationStart) →
      (∀ a ∈ (checkViolationsLoop cameraId fw fh cfg now l store).1,
        a.personTrackId ≠ some tid) ∧
      lookupRec (checkViolationsLoop cameraId fw fh cfg now l store).2.1 tid =
        some st := by
  induction l with
  | nil => intro store tid st _ hl; simp [lookupRec] at hl
  | cons hd rest ih =>
    rcases hd with ⟨t, r⟩
    intro store tid st hnd hl halert hnc
    simp only [List.map_cons, List.nodup_cons] at hnd
    obtain ⟨alerts1, r2, store1, heq, hmem, hid⟩ :=
      checkLoop_cons_shape cameraId fw fh cfg now t r rest store
    by_cases ht : t = tid
    · subst ht
      rw [lookupRec, if_pos rfl] at hl
      have hr : r = st := by injection hl
      subst hr
      obtain ⟨ha1, hr2, hs1⟩ := hid halert hnc
      rw [ha1, hr2, hs1] at heq
      rw [heq]
      constructor
      · intro a ha
        rw [List.nil_append] at ha
        obtain ⟨p, hp, he⟩ := checkLoop_alert_from_member cameraId fw fh cfg now
          rest store a ha
        rw [he]
        intro hcon
        have : p.1 = t := by injection hcon
        exact hnd.1 (this ▸ List.mem_map_of_mem Prod.fst hp)
      · rw [lookupRec, if_pos rfl]
    · rw [lookupRec, if_neg ht] at hl
      obtain ⟨hrest1, hrest2⟩ := ih store1 tid st hnd.2 hl halert hnc
      rw [heq]
      constructor
      · intro a ha
        rcases List.mem_append.mp ha with h | h
        · rw [hmem a h]
          intro hcon
          exact ht (by injection hcon)
        · exact hrest1 a h
      · rw [lookupRec, if_neg ht]
        exact hrest2

/-! ### Claim theorems: conjunctive confirmation -/

/-- C1: for a non-alerted violation record examined by
check_and_generate_alerts, if the consecutive frame count is below
alert_min_consecutive_frames or the elapsed time since violation_start is
below alert_debounce_seconds, then no alert is emitted for that identity
and its record is left untouched — in particular it stays non-alerted.
Hence an alert is emitted for a record only when both conjuncts hold at
check time. -/
theorem C1_conjunctive_confirmation (m : AlertManager) (now : ℚ) (tid : ℕ)
    (st : ViolationRecord)
    (hnd : (m.violationStates.map Prod.fst).Nodup)
    (hl : lookupRec m.violationStates tid = some st)
    (halert : st.alerted = false)
    (hnc : ¬(m.config.alertMinConsecutiveFrames ≤ st.consecutiveFrames ∧
        m.config.alertDebounceSeconds ≤ now - st.violationStart)) :
    (∀ a ∈ (checkAndGenerateAlerts m now).1, a.personTrackId ≠ some tid) ∧
    lookupRec (checkAndGenerateAlerts m now).2.violationStates tid = some st :=
  checkLoop_unconfirmed_untouched m.cameraId m.frameWidth m.frameHeight m.config
    now m.violationStates m.store tid st hnd hl halert hnc

/-- C1 witness: a concrete record with enough frames but too little elapsed
time produces no alert and stays unchanged. -/
theorem C1_witness :
    (let r : ViolationRecord :=
      ⟨0, 1, 5, 5, 25, ["helmet"], 0, 0, [⟨0, 0, 2, 2⟩], none, false⟩
     let m : AlertManager := ⟨{}, "cam", 640, 480, 5, [(5, r)], none⟩
     (m.violationStates.map Prod.fst).Nodup ∧
     lookupRec m.violationStates 5 = some r ∧
     r.alerted = false ∧
     ¬(m.config.alertMinConsecutiveFrames ≤ r.consecutiveFrames ∧
        m.config.alertDebounceSeconds ≤ 10 - r.violationStart) ∧
     (∀ a ∈ (checkAndGenerateAlerts m 10).1, a.personTrackId ≠ some 5) ∧
     lookupRec (checkAndGenerateAlerts m 10).2.violationStates 5 = some r) :=
  ⟨by decide, by decide, by decide, by decide,
   (C1_conjunctive_confirmation
     ⟨{}, "cam", 640, 480, 5,
       [(5, ⟨0, 1, 5, 5, 25, ["helmet"], 0, 0, [⟨0, 0, 2, 2⟩], none, false⟩)], none⟩
     10 5 ⟨0, 1, 5, 5, 25, ["helmet"], 0, 0, [⟨0, 0, 2, 2⟩], none, false⟩
     (by decide) (by decide) (by decide) (by decide)).1,
   (C1_conjunctive_confirmation
     ⟨{}, "cam", 640, 480, 5,
       [(5, ⟨0, 1, 5, 5, 25, ["helmet"], 0, 0, [⟨0, 0, 2, 2⟩], none, false⟩)], none⟩
     10 5 ⟨0, 1, 5, 5, 25, ["helmet"], 0, 0, [⟨0, 0, 2, 2⟩], none, false⟩
     (by decide) (by decide) (by decide) (by decide)).2⟩

/-! ### Helper lemmas for deduplication -/

theorem vhash_ne_suppr (h : String) (cameraId : String) (gx gy : ℤ) :
    Key.vhash h ≠ Key.suppr cameraId gx gy :=
  fun hc => Key.noConfusion hc

theorem getViolationHash_perm (cameraId : String) (gx gy : ℤ)
    (l1 l2 : List String) (h : l1.Perm l2) :
    getViolationHash cameraId gx gy l1 = getViolationHash cameraId gx gy l2 := by
  simp only [getViolationHash]
  rw [List.eq_of_perm_of_sorted
    ((List.perm_insertionSort _ l1).trans (h.trans (List.perm_insertionSort _ l2).symm))
    (List.sorted_insertionSort _ l1) (List.sorted_insertionSort _ l2)]

theorem storeLookup_expire_ne (s : Store) (k k2 : Key) (ttl now : ℚ)
    (h : k2 ≠ k) : storeLookup (storeExpire s k ttl now) k2 = storeLookup s k2 := by
  rw [storeExpire]
  cases hl : storeLookup s k with
  | none => rfl
  | some e =>
    rw [storeLookup, if_neg (fun hh => h hh.symm)]
    exact storeLookup_erase_ne s k k2 h

theorem storeLookup_setSuppression_ne (store : Option Store) (cameraId : String)
    (gx gy : ℤ) (renew : Bool) (ttl now : ℚ) (k : Key)
    (h : k ≠ Key.suppr cameraId gx gy) :
    Option.bind (setSuppression store cameraId gx gy renew ttl now)
      (fun s => storeLookup s k) =
    Option.bind store (fun s => storeLookup s k) := by
  cases store with
  | none => rfl
  | some s =>
    simp only [setSuppression]
    by_cases hc : renew = true ∧ storeExists s (Key.suppr cameraId gx gy) now = true
    · rw [if_pos hc]
      exact storeLookup_expire_ne s _ k ttl now h
    · rw [if_neg hc]
      exact storeLookup_setex_ne s _ k ttl now h

/-! ### Claim theorems: dedup idempotence -/

/-- C2: (i) the violation hash depends only on the camera id, grid cell and
missing-attribute list up to permutation; (ii) after a first confirmed
record emits an alert (recording its hash with TTL hash_ttl_seconds and
suppressing its cell), a second confirmed, non-alerted record with the same
camera, grid cell and missing-attribute set, checked before the hash TTL
elapses, emits nothing: it is merely marked alerted, and the store is
unchanged except possibly for a renewal of the suppression entry of that
cell — so at most one alert is emitted for the pair. -/
theorem C2_dedup_idempotent :
    (∀ (cameraId : String) (gx gy : ℤ) (l1 l2 : List String), l1.Perm l2 →
      getViolationHash cameraId gx gy l1 = getViolationHash cameraId gx gy l2) ∧
    (∀ (cfg : AlertConfig) (cameraId : String) (fw fh : ℚ) (fc1 fc2 : ℕ)
       (s0 : Store) (t1 t2 : ℕ) (r1 r2 : ViolationRecord) (now1 now2 : ℚ),
      r1.alerted = false →
      cfg.alertMinConsecutiveFrames ≤ r1.consecutiveFrames ∧
        cfg.alertDebounceSeconds ≤ now1 - r1.violationStart →
      storeExists s0
        (Key.vhash (getViolationHash cameraId r1.gridX r1.gridY r1.missingPpe))
        now1 = false →
      storeExists s0 (Key.suppr cameraId r1.gridX r1.gridY) now1 = false →
      r2.alerted = false →
      cfg.alertMinConsecutiveFrames ≤ r2.consecutiveFrames ∧
        cfg.alertDebounceSeconds ≤ now2 - r2.violationStart →
      r2.gridX = r1.gridX → r2.gridY = r1.gridY →
      r2.missingPpe.Perm r1.missingPpe →
      now2 < now1 + cfg.alertHashTtlSeconds →
      (checkAndGenerateAlerts ⟨cfg, cameraId, fw, fh, fc1, [(t1, r1)], some s0⟩
          now1 =
        ([createAlert cameraId fw fh r1 (now1 - r1.violationStart) t1],
         ⟨cfg, cameraId, fw, fh, fc1, [(t1, { r1 with alerted := true })],
          some (storeSetex
            (storeSetex s0
              (Key.vhash (getViolationHash cameraId r1.gridX r1.gridY r1.missingPpe))
              cfg.alertHashTtlSeconds now1)
            (Key.suppr cameraId r1.gridX r1.gridY)
            cfg.suppressionResetSeconds now1)⟩)) ∧
      (checkAndGenerateAlerts ⟨cfg, cameraId, fw, fh, fc2, [(t2, r2)],
          some (storeSetex
            (storeSetex s0
              (Key.vhash (getViolationHash cameraId r1.gridX r1.gridY r1.missingPpe))
              cfg.alertHashTtlSeconds now1)
            (Key.suppr cameraId r1.gridX r1.gridY)
            cfg.suppressionResetSeconds now1)⟩ now2).1 = [] ∧
      (checkAndGenerateAlerts ⟨cfg, cameraId, fw, fh, fc2, [(t2, r2)],
          some (storeSetex
            (storeSetex s0
              (Key.vhash (getViolationHash cameraId r1.gridX r1.gridY r1.missingPpe))
              cfg.alertHashTtlSeconds now1)
            (Key.suppr cameraId r1.gridX r1.gridY)
            cfg.suppressionResetSeconds now1)⟩ now2).2.violationStates =
        [(t2, { r2 with alerted := true })] ∧
      (∀ k, k ≠ Key.suppr cameraId r1.gridX r1.gridY →
        Option.bind (checkAndGenerateAlerts ⟨cfg, cameraId, fw, fh, fc2,
          [(t2, r2)],
          some (storeSetex
            (storeSetex s0
              (Key.vhash (getViolationHash cameraId r1.gridX r1.gridY r1.missingPpe))
              cfg.alertHashTtlSeconds now1)
            (Key.suppr cameraId r1.gridX r1.gridY)
            cfg.suppressionResetSeconds now1)⟩ now2).2.store
          (fun s => storeLookup s k) =
        Option.bind (some (storeSetex
            (storeSetex s0
              (Key.vhash (getViolationHash cameraId r1.gridX r1.gridY r1.missingPpe))
              cfg.alertHashTtlSeconds now1)
            (Key.suppr cameraId r1.gridX r1.gridY)
            cfg.suppressionResetSeconds now1))
          (fun s => storeLookup s k))) := by
  refine ⟨getViolationHash_perm, ?_⟩
  intro cfg cameraId fw fh fc1 fc2 s0 t1 t2 r1 r2 now1 now2
    h1a h1c hnh hns h2a h2c hgx hgy hperm htime
  have hne1 : ¬(r1.alerted = true) := by simp [h1a]
  have hne2 : ¬(r2.alerted = true) := by simp [h2a]
  have hveq : getViolationHash cameraId r2.gridX r2.gridY r2.missingPpe =
      getViolationHash cameraId r1.gridX r1.gridY r1.missingPpe := by
    rw [hgx, hgy, getViolationHash_perm cameraId r1.gridX r1.gridY _ _ hperm]
  have hhh : ¬(isViolationHashAlerted (some s0)
      (getViolationHash cameraId r1.gridX r1.gridY r1.missingPpe) now1 = true) := by
    simp [isViolationHashAlerted, hnh]
  have hsup : isSuppressed (some s0) cameraId r1.gridX r1.gridY now1 = false := by
    simp [isSuppressed, hns]
  refine ⟨?_, ?_⟩
  · simp only [checkAndGenerateAlerts, checkViolationsLoop]
    rw [if_neg hne1, if_pos h1c, if_neg hhh, if_pos hsup]
    rfl
  · have hal2 : isViolationHashAlerted
        (some (storeSetex
          (storeSetex s0
            (Key.vhash (getViolationHash cameraId r1.gridX r1.gridY r1.missingPpe))
            cfg.alertHashTtlSeconds now1)
          (Key.suppr cameraId r1.gridX r1.gridY)
          cfg.suppressionResetSeconds now1))
        (getViolationHash cameraId r2.gridX r2.gridY r2.missingPpe) now2 = true := by
      rw [hveq]
      simp only [isViolationHashAlerted, storeExists]
      rw [storeLookup_setex_ne _ _ _ _ _ (vhash_ne_suppr _ _ _ _),
        storeLookup_setex_self]
      simp [htime]
    refine ⟨?_, ?_, ?_⟩
    · simp only [checkAndGenerateAlerts, checkViolationsLoop]
      rw [if_neg hne2, if_pos h2c, if_pos hal2]
    · simp only [checkAndGenerateAlerts, checkViolationsLoop]
      rw [if_neg hne2, if_pos h2c, if_pos hal2]
    · intro k hk
      simp only [checkAndGenerateAlerts, checkViolationsLoop]
      rw [if_neg hne2, if_pos h2c, if_pos hal2]
      by_cases hs2 : isSuppressed
          (some (storeSetex
            (storeSetex s0
              (Key.vhash (getViolationHash cameraId r1.gridX r1.gridY r1.missingPpe))
              cfg.alertHashTtlSeconds now1)
            (Key.suppr cameraId r1.gridX r1.gridY)
            cfg.suppressionResetSeconds now1))
          cameraId r2.gridX r2.gridY now2 = true
      · rw [if_pos hs2]
        simp only
        rw [hgx, hgy]
        exact storeLookup_setSuppression_ne _ cameraId r1.gridX r1.gridY true
          cfg.suppressionResetSeconds now2 k hk
      · rw [if_neg hs2]

/-- C2 witness: two concrete confirmed records in cell (1,2) of camera
"cam" with permuted missing-attribute lists, checked 16 seconds apart with
hash TTL 60: the first call emits one alert, the second emits none and
marks its record alerted. -/
theorem C2_witness :
    (["gloves", "helmet"] : List String).Perm ["helmet", "gloves"] ∧
    (31 : ℚ) < 15 + ({} : AlertConfig).alertHashTtlSeconds ∧
    (checkAndGenerateAlerts ⟨{}, "cam", 640, 480, 9,
      [(2, ⟨16, 5, 30, 25, 22, ["gloves", "helmet"], 1, 2, [⟨0, 0, 2, 2⟩], none,
        false⟩)],
      some (storeSetex
        (storeSetex []
          (Key.vhash (getViolationHash "cam" 1 2 ["helmet", "gloves"])) 60 15)
        (Key.suppr "cam" 1 2) 20 15)⟩ 31).1 = [] ∧
    (checkAndGenerateAlerts ⟨{}, "cam", 640, 480, 9,
      [(2, ⟨16, 5, 30, 25, 22, ["gloves", "helmet"], 1, 2, [⟨0, 0, 2, 2⟩], none,
        false⟩)],
      some (storeSetex
        (storeSetex []
          (Key.vhash (getViolationHash "cam" 1 2 ["helmet", "gloves"])) 60 15)
        (Key.suppr "cam" 1 2) 20 15)⟩ 31).2.violationStates =
      [(2, ⟨16, 5, 30, 25, 22, ["gloves", "helmet"], 1, 2, [⟨0, 0, 2, 2⟩], none,
        true⟩)] :=
  ⟨by decide, by decide,
   (C2_dedup_idempotent.2 {} "cam" 640 480 3 9 [] 1 2
     ⟨0, 1, 15, 20, 20, ["helmet", "gloves"], 1, 2, [⟨0, 0, 2, 2⟩], none, false⟩
     ⟨16, 5, 30, 25, 22, ["gloves", "helmet"], 1, 2, [⟨0, 0, 2, 2⟩], none, false⟩
     15 31 (by decide) (by decide) (by decide) (by decide) (by decide) (by decide)
     (by decide) (by decide) (by decide) (by decide)).2.1,
   (C2_dedup_idempotent.2 {} "cam" 640 480 3 9 [] 1 2
     ⟨0, 1, 15, 20, 20, ["helmet", "gloves"], 1, 2, [⟨0, 0, 2, 2⟩], none, false⟩
     ⟨16, 5, 30, 25, 22, ["gloves", "helmet"], 1, 2, [⟨0, 0, 2, 2⟩], none, false⟩
     15 31 (by decide) (by decide) (by decide) (by decide) (by decide) (by decide)
     (by decide) (by decide) (by decide) (by decide)).2.2.1⟩

/-! ### The box list of update_violations grows without bound -/

theorem c9_step (m : AlertManager) (now : ℚ) (n : ℕ) (r : ViolationRecord)
    (hst : m.violationStates = [(0, r)]) :
    ∃ r2, (updateViolations m now [c9Obs n]).violationStates = [(0, r2)] ∧
      r2.boxes =
        (if c9Box n ∈ r.boxes then r.boxes else r.boxes ++ [c9Box n]) := by
  rw [updateViolations_states_eq, hst]
  rw [List.filter_cons_of_pos (by rfl)]
  simp only [List.filter_nil, List.foldl_cons, List.foldl_nil]
  have hl : lookupRec [(0, r)] (c9Obs n).tid = some r := rfl
  simp only [updateViolationObs, hl]
  rw [replaceRec, if_pos (show (0 : ℕ) = (c9Obs n).tid from rfl)]
  by_cases hcf : m.frameCounter + 1 = r.lastSeenFrame + 1
  · rw [if_pos hcf]
    exact ⟨_, rfl, rfl⟩
  · rw [if_neg hcf]
    exact ⟨_, rfl, rfl⟩

theorem c9_boxes (n : ℕ) :
    ∃ r, (c9Run (n + 1)).violationStates = [(0, r)] ∧
      r.boxes = (List.range (n + 1)).map c9Box := by
  induction n with
  | zero =>
    rw [show c9Run 1 = updateViolations c9Mgr0 0 [c9Obs 0] from rfl,
      updateViolations_states_eq]
    have hl : lookupRec
        (c9Mgr0.violationStates.filter (fun p =>
          if (([c9Obs 0]).map VObs.tid).contains p.1 then true
          else if p.2.alerted then
            !decide (c9Mgr0.config.suppressionResetSeconds < 0 - p.2.lastSeen)
          else false)) (c9Obs 0).tid = none := rfl
    simp only [List.foldl_cons, List.foldl_nil, updateViolationObs, hl]
    exact ⟨_, rfl, rfl⟩
  | succ n ih =>
    obtain ⟨r, hst, hbx⟩ := ih
    obtain ⟨r2, hst2, hbx2⟩ := c9_step (c9Run (n + 1)) ((n + 1 : ℕ) : ℚ) (n + 1) r hst
    have hmem : c9Box (n + 1) ∉ (List.range (n + 1)).map c9Box := by
      intro hc
      obtain ⟨i, hi, he⟩ := List.mem_map.mp hc
      have h2 : (i : ℚ) = ((n + 1 : ℕ) : ℚ) := by
        simpa [c9Box] using congrArg Box4.x1 he
      have h3 : i = n + 1 := Nat.cast_injective h2
      rw [List.mem_range] at hi
      omega
    refine ⟨r2, hst2, ?_⟩
    rw [hbx2, hbx, if_neg hmem]
    conv_rhs => rw [List.range_succ, List.map_append]
    rfl

theorem c9BoxLen_eq (n : ℕ) : c9BoxLen (n + 1) = n + 1 := by
  obtain ⟨r, hst, hbx⟩ := c9_boxes n
  simp [c9BoxLen, hst, lookupRec, hbx]

/-! ### Claim theorem: the stored box sequence is not bounded -/

/-- C9 (refuting the claimed bound): for every candidate bound B there is a
run of update_violations — track id 0 observed on every tick with a fresh
distinct box each tick — after which the stored box sequence of that
identity is longer than B.  The code appends every distinct box
(`if box not in state["boxes"]: append`), although the adjacent comment
says it keeps the most recent box and the spec calls the sequence bounded. -/
theorem C9_boxes_unbounded (B : ℕ) : B < c9BoxLen (B + 1) := by
  rw [c9BoxLen_eq]
  omega

end EGTC
